import Mathlib

/-!
Verification of the response-normalization, validation and flexible-authentication
core of the researcher FoR-classification dashboard.

The Python source is shallowly embedded: JSON payloads become the inductive
type JVal, dictionary access becomes association-list lookup, and code that can
raise a Python exception is modelled with Except, the error string naming the
exception class.  Functions are translated from src/utils/webhook_client.py and
src/utils/flexible_auth.py; network and hash-library effects are abstracted as
explicit parameters describing the outcome of the external call.
-/

deriving instance DecidableEq for Except

/-- JSON-like values as produced by parsing webhook or database responses.
Numbers are modelled as rationals; the Python int/float distinction is
conflated (Python numeric equality conflates them too).  Objects are
association lists in insertion order; keys are assumed distinct, as the JSON
parser produces, and lookup returns the first binding. -/
inductive JVal where
  | null
  | bool (b : Bool)
  | num (q : Rat)
  | str (s : String)
  | arr (elems : List JVal)
  | obj (fields : List (String × JVal))

/-- Python truthiness, the behaviour of bool(v) on JSON-derived values:
None, False, 0, empty string, empty list and empty dict are falsy. -/
def truthy : JVal → Bool
  | .null => false
  | .bool b => b
  | .num q => if q = 0 then false else true
  | .str s => !s.isEmpty
  | .arr elems => !elems.isEmpty
  | .obj fields => !fields.isEmpty

/-- Dictionary access d.get(key, dflt): the value of the first binding of the
key, or the default when the key is absent. -/
def getD (fields : List (String × JVal)) (key : String) (dflt : JVal) : JVal :=
  match fields.lookup key with
  | some v => v
  | none => dflt

/-- The array-unwrapping step shared by validate_response and
normalize_response_format: a non-empty top-level array is replaced by its
first element (isinstance(response, list) and len(response) > 0), anything
else is kept. -/
def unwrapArray : JVal → JVal
  | .arr (x :: _) => x
  | v => v

/-- WebhookClient.validate_response (src/utils/webhook_client.py, lines 86-113).
After unwrapping, a non-dict yields False.  Otherwise the code computes
bool(response.get('primary_classifications')), then evaluates
response.get('llm_classification', default empty dict).get(...): when that
value is not a dict, the attribute access raises AttributeError, modelled as
the error branch.  Finally bool(response.get('researcher_name)). -/
def validate_response (response : JVal) : Except String Bool :=
  match unwrapArray response with
  | .obj fields =>
    let hasDirect := truthy (getD fields "primary_classifications" .null)
    match getD fields "llm_classification" (.obj []) with
    | .obj lf =>
      let hasNested := truthy (getD lf "primary_classifications" .null)
      let hasResearcher := truthy (getD fields "researcher_name" .null)
      .ok (hasDirect || hasNested || hasResearcher)
    | _ => .error "AttributeError"
  | _ => .ok false

/-- Validity as the amended claim states it, written independently of the
implementation: after unwrapping, a dict payload is valid when the direct
primary-classifications value is truthy, or the primary-classifications value
inside a dict-valued llm_classification member is truthy, or the
researcher_name value is truthy; everything else is invalid. -/
def specValid (v : JVal) : Bool :=
  match unwrapArray v with
  | .obj fields =>
    (match fields.lookup "primary_classifications" with
     | some w => truthy w
     | none => false)
    || (match fields.lookup "llm_classification" with
        | some (.obj lf) =>
          (match lf.lookup "primary_classifications" with
           | some w => truthy w
           | none => false)
        | _ => false)
    || (match fields.lookup "researcher_name" with
        | some w => truthy w
        | none => false)
  | _ => false

example : validate_response (.obj [("researcher_name", .str "R")]) = .ok true := by rfl
example : validate_response (.arr [.obj [("researcher_name", .str "R")]]) = .ok true := by rfl
example : validate_response (.obj [("llm_classification", .num 1)]) = .error "AttributeError" := by rfl
example : validate_response (.str "x") = .ok false := by rfl
example : specValid (.obj [("researcher_name", .str "R")]) = true := by rfl

/-- Single-quote character, kept out of string literals. -/
def sqChar : Char := Char.ofNat 39

/-- Double-quote character. -/
def dqChar : Char := Char.ofNat 34

/-- Python repr of a string: double quotes when the text contains a single
quote but no double quote, otherwise single quotes with the single quote
escaped.  Escaping of control characters and backslashes is not modelled; the
theorems below only evaluate this on plain text. -/
def pyReprStr (s : String) : String :=
  if s.contains sqChar && !(s.contains dqChar) then
    String.mk [dqChar] ++ s ++ String.mk [dqChar]
  else
    String.mk [sqChar] ++ String.replace s (String.mk [sqChar]) (String.mk [Char.ofNat 92, sqChar])
      ++ String.mk [sqChar]

mutual

/-- Python repr of a JSON-derived value, used for values nested inside
containers.  Rational rendering stands in for Python int/float rendering. -/
def pyRepr : JVal → String
  | .null => "None"
  | .bool true => "True"
  | .bool false => "False"
  | .num q => toString q
  | .str s => pyReprStr s
  | .arr elems => "[" ++ pyReprList elems ++ "]"
  | .obj fields => "\x7b" ++ pyReprPairs fields ++ "\x7d"

/-- Comma-separated reprs of list elements. -/
def pyReprList : List JVal → String
  | [] => ""
  | [x] => pyRepr x
  | x :: y :: rest => pyRepr x ++ ", " ++ pyReprList (y :: rest)

/-- Comma-separated key: value reprs of dict entries. -/
def pyReprPairs : List (String × JVal) → String
  | [] => ""
  | [(k, v)] => pyReprStr k ++ ": " ++ pyRepr v
  | (k, v) :: p :: rest => pyReprStr k ++ ": " ++ pyRepr v ++ ", " ++ pyReprPairs (p :: rest)

end

/-- Python str(v): a string renders as itself, everything else as its repr. -/
def pyStr : JVal → String
  | .str s => s
  | v => pyRepr v

/-- Python iteration over a value, as used by a for loop: a list yields its
elements, a string yields its characters as one-character strings, a dict
yields its keys; other values raise TypeError. -/
def pyIter : JVal → Except String (List JVal)
  | .arr elems => .ok elems
  | .str s => .ok (s.data.map fun c => JVal.str (String.mk [c]))
  | .obj fields => .ok (fields.map fun kv => JVal.str kv.1)
  | _ => .error "TypeError"

/-- Whitespace characters matched by the regex class backslash-s, restricted
to the ASCII range (space, tab, newline, carriage return, vertical tab, form
feed).  Non-ASCII Unicode whitespace is not modelled. -/
def isPySpace (c : Char) : Bool :=
  c = ' ' || c = Char.ofNat 9 || c = Char.ofNat 10 || c = Char.ofNat 13 ||
  c = Char.ofNat 11 || c = Char.ofNat 12

/-- ASCII uppercase letter, the regex class A to Z. -/
def isUpperAZ (c : Char) : Bool := 'A' ≤ c && c ≤ 'Z'

/-- ASCII lowercase letter, the regex class a to z. -/
def isLowerAZ (c : Char) : Bool := 'a' ≤ c && c ≤ 'z'

/-- The literal word the name regex anchors on. -/
def profLit : List Char := ['P', 'r', 'o', 'f', 'e', 's', 's', 'o', 'r']

/-- Match of one capitalized name token, the regex piece of one uppercase
letter followed by one or more lowercase letters; returns the token and the
rest of the input.  Greedy matching of a lowercase run is maximal munch,
which agrees with regex backtracking because the lowercase class is disjoint
from the whitespace class that follows it in the pattern. -/
def nameToken : List Char → Option (List Char × List Char)
  | [] => none
  | c :: rest =>
    if isUpperAZ c then
      let ls := rest.takeWhile isLowerAZ
      if ls.isEmpty then none
      else some (c :: ls, rest.dropWhile isLowerAZ)
    else none

/-- Attempt of the whole pattern at the start of the input: the literal word,
one or more whitespace characters, then the captured group of two name tokens
separated by whitespace.  Returns the captured group.  Each greedy piece is
maximal munch; adjacent character classes are disjoint, so this equals the
backtracking semantics of the Python pattern. -/
def matchProfAt (s : List Char) : Option (List Char) :=
  if profLit.isPrefixOf s then
    let r0 := s.drop 9
    let w1 := r0.takeWhile isPySpace
    if w1.isEmpty then none
    else
      match nameToken (r0.dropWhile isPySpace) with
      | none => none
      | some (t1, r2) =>
        let w2 := r2.takeWhile isPySpace
        if w2.isEmpty then none
        else
          match nameToken (r2.dropWhile isPySpace) with
          | none => none
          | some (t2, _) => some (t1 ++ w2 ++ t2)
  else none

/-- The re.search strategy: try the pattern at every position from left to
right and return the first captured group found. -/
def profSearch : List Char → Option (List Char)
  | [] => none
  | c :: rest =>
    match matchProfAt (c :: rest) with
    | some g => some g
    | none => profSearch rest

/-- WebhookClient.extract_researcher_name_from_response
(src/utils/webhook_client.py, lines 246-257): read enriched_biography with an
empty-string default, search it for the Professor name pattern, return the
captured group or the literal fallback.  A non-dict argument raises
AttributeError on .get, and a non-string biography raises TypeError inside
re.search. -/
def extract_researcher_name_from_response (response : JVal) : Except String String :=
  match response with
  | .obj fields =>
    match getD fields "enriched_biography" (.str "") with
    | .str bio =>
      match profSearch bio.data with
      | some g => .ok (String.mk g)
      | none => .ok "Researcher"
    | _ => .error "TypeError"
  | _ => .error "AttributeError"

example : extract_researcher_name_from_response
    (.obj [("enriched_biography", .str "Professor Jane Doe studies genetics.")]) =
    .ok "Jane Doe" := by rfl
example : extract_researcher_name_from_response (.obj []) = .ok "Researcher" := by rfl
example : extract_researcher_name_from_response
    (.obj [("enriched_biography", .str "Professors Jane Doe")]) = .ok "Researcher" := by rfl

/-- Mapping of one raw classification entry into the normalized record, the
loop body shared verbatim by the primary and secondary loops of
WebhookClient.normalize_response_format (src/utils/webhook_client.py, lines
189-233): every field is read with .get and the listed default,
llm_confidence becomes confidence with default medium, llm_reasoning becomes
reasoning with empty default, evidence_keywords defaults to the empty list,
and the two score fields use the None default of a one-argument .get.  A
non-dict entry raises AttributeError. -/
def normalize_classification (c : JVal) : Except String JVal :=
  match c with
  | .obj f => .ok (.obj [
      ("field_number", getD f "field_number" (.str "")),
      ("field_name", getD f "field_name" (.str "")),
      ("confidence", getD f "llm_confidence" (.str "medium")),
      ("reasoning", getD f "llm_reasoning" (.str "")),
      ("evidence_keywords", getD f "evidence_keywords" (.arr [])),
      ("rank", getD f "rank" (.num 0)),
      ("group_name", getD f "group_name" (.str "")),
      ("group_number", getD f "group_number" (.str "")),
      ("division_name", getD f "division_name" (.str "")),
      ("division_number", getD f "division_number" (.str "")),
      ("field_semantic_score", getD f "field_semantic_score" .null),
      ("field_combined_score", getD f "field_combined_score" .null),
      ("hierarchy_validated", getD f "hierarchy_validated" (.bool false)),
      ("classification_source", getD f "classification_source" (.str "")),
      ("classification_method", getD f "classification_method" (.str ""))])
  | _ => .error "AttributeError"

/-- The normalized dict built by the flat path of normalize_response_format:
the literal from lines 156-188 of src/utils/webhook_client.py with the two
classification lists filled in by the loops, followed by the final
normalized.update of lines 235-242, whose five keys are new and so append in
order. -/
def buildNormalizedFields (fields : List (String × JVal)) (name : String)
    (primN secN : List JVal) : List (String × JVal) :=
  [
    ("llm_classification", .obj [
      ("primary_classifications", .arr primN),
      ("secondary_classifications", .arr secN),
      ("evidence_based_biography", getD fields "enriched_biography" (.str "")),
      ("enriched_biography", getD fields "enriched_biography" (.str "")),
      ("classification_rationale", getD fields "llm_rationale" (.str "")),
      ("confidence_level", getD fields "llm_confidence_level" (.str "medium")),
      ("query_response", .str ("Classification completed for researcher with "
        ++ pyStr (getD fields "classification_confidence" (.str "medium"))
        ++ " confidence."))]),
    ("researcher_name", .str name),
    ("classification_timestamp", getD fields "classification_timestamp" (.str "")),
    ("classification_confidence", getD fields "classification_confidence" (.str "medium")),
    ("institutional_context", .obj [
      ("organization", .str "Deakin University"),
      ("position", .str "Professor"),
      ("department", .str "School of Life and Environmental Sciences"),
      ("email", .str "Not available")]),
    ("institutional_data_complete", .bool true),
    ("data_sources_used", .arr [.str "n8n_workflow"]),
    ("search_quality", .obj [
      ("fuzzy_match_used", .bool false),
      ("confidence_score", .num 1),
      ("match_type", .str "exact_match")]),
    ("classification_method", getD fields "classification_method" (.str "")),
    ("filtering_efficiency", getD fields "filtering_efficiency" (.str "")),
    ("status", getD fields "status" (.str "")),
    ("primary_research_areas", getD fields "primary_research_areas" (.arr [])),
    ("secondary_research_areas", getD fields "secondary_research_areas" (.arr []))]

/-- The normalized dict of the flat path as a JSON value. -/
def buildNormalized (fields : List (String × JVal)) (name : String)
    (primN secN : List JVal) : JVal :=
  .obj (buildNormalizedFields fields name primN secN)

/-- The classification conversion loop: map each raw entry through
normalize_classification, stopping at the first entry that raises. -/
def mapExcept (g : JVal → Except String JVal) : List JVal → Except String (List JVal)
  | [] => .ok []
  | c :: cs =>
    match g c with
    | .error e => .error e
    | .ok n =>
      match mapExcept g cs with
      | .error e => .error e
      | .ok ns => .ok (n :: ns)

/-- Body of WebhookClient.normalize_response_format after the array unwrap
(src/utils/webhook_client.py, lines 139-244): a non-dict is returned as-is, a
dict holding llm_classification is returned unchanged, and otherwise the flat
payload is rebuilt into the nested shape.  Evaluation order follows the
source: the researcher name is computed while the dict literal is built, then
the primary loop runs, then the secondary loop, so the first raising step
determines the error. -/
def normalizeCore : JVal → Except String JVal
  | .obj fields =>
    if (fields.lookup "llm_classification").isSome then .ok (.obj fields)
    else
      match extract_researcher_name_from_response (.obj fields) with
      | .error e => .error e
      | .ok name =>
        match pyIter (getD fields "primary_classifications" (.arr [])) with
        | .error e => .error e
        | .ok primRaw =>
          match mapExcept normalize_classification primRaw with
          | .error e => .error e
          | .ok primN =>
            match pyIter (getD fields "secondary_classifications" (.arr [])) with
            | .error e => .error e
            | .ok secRaw =>
              match mapExcept normalize_classification secRaw with
              | .error e => .error e
              | .ok secN => .ok (buildNormalized fields name primN secN)
  | v => .ok v

/-- WebhookClient.normalize_response_format (src/utils/webhook_client.py,
lines 139-244): unwrap a non-empty top-level array to its first element, then
run the body. -/
def normalize_response_format (response : JVal) : Except String JVal :=
  normalizeCore (unwrapArray response)

/-- The ordered list of error-indicating keys scanned by
WebhookClient.extract_error_message. -/
def errorFields : List String := ["error", "error_message", "validation_error", "termination_reason"]

/-- The scanning loop of extract_error_message: the first key of the list
that is present in the dict with a truthy value wins. -/
def scanErr (fields : List (String × JVal)) : List String → Option JVal
  | [] => none
  | k :: ks =>
    match fields.lookup k with
    | some v => if truthy v then some v else scanErr fields ks
    | none => scanErr fields ks

/-- WebhookClient.extract_error_message (src/utils/webhook_client.py, lines
115-137): return str of the first truthy error field, else the fixed
not-found message when validation_guardrail.get of validation_status equals
the not_found marker, else None.  A non-dict payload raises (TypeError on the
membership test or indexing, or AttributeError on .get), and a present
non-dict validation_guardrail value raises AttributeError on .get. -/
def extract_error_message (response : JVal) : Except String (Option String) :=
  match response with
  | .obj fields =>
    match scanErr fields errorFields with
    | some v => .ok (some (pyStr v))
    | none =>
      match getD fields "validation_guardrail" (.obj []) with
      | .obj gf =>
        if (match gf.lookup "validation_status" with
            | some (.str s) => s == "not_found"
            | _ => false) then
          .ok (some "Researcher not found in the classification system")
        else .ok none
      | _ => .error "AttributeError"
  | _ => .error "TypeError"

/-- Outcome of the HTTP POST made by WebhookClient.send_message, abstracting
the requests library: timeout, connection error, an HTTP error status, an
unparseable JSON body, or a parsed JSON body. -/
inductive RequestOutcome where
  | timeout
  | connectionError
  | httpError (status : Nat)
  | jsonDecodeError
  | success (body : JVal)

/-- Error kinds raised to the caller by send_message, named after the Python
exception classes it raises. -/
inductive SendError where
  | timeoutError (msg : String)
  | connectionFailure (msg : String)
  | valueError (msg : String)
  | runtimeError (msg : String)

/-- WebhookClient.send_message (src/utils/webhook_client.py, lines 21-84)
given the outcome of the HTTP call: each requests failure is mapped to the
typed error of the source, a parsed body is normalized and returned, and an
exception escaping normalization is caught by the final handler and
re-raised as RuntimeError. -/
def send_message (outcome : RequestOutcome) : Except SendError JVal :=
  match outcome with
  | .timeout => .error (.timeoutError "Classification request timed out")
  | .connectionError => .error (.connectionFailure "Failed to connect to classification service")
  | .httpError 404 => .error (.valueError "Webhook not found (404). Please check the webhook URL, workflow activation and webhook node configuration.")
  | .httpError 405 => .error (.valueError "Method not allowed (405). The webhook may not accept POST requests.")
  | .httpError 500 => .error (.valueError "Server error (500). There may be an issue with the n8n workflow.")
  | .httpError 403 => .error (.valueError "Access forbidden (403). Check webhook permissions and authentication.")
  | .httpError s => .error (.valueError ("Server error: " ++ toString s))
  | .jsonDecodeError => .error (.valueError "Invalid response format from classification service")
  | .success body =>
    match normalize_response_format body with
    | .ok v => .ok v
    | .error e => .error (.runtimeError ("Unexpected error: " ++ e))

example : normalize_response_format (.obj [("llm_classification", .null)]) =
    .ok (.obj [("llm_classification", .null)]) := by rfl
example : normalize_response_format (.num 5) = .ok (.num 5) := by rfl
example : normalize_response_format (.arr [.str "a"]) = .ok (.str "a") := by rfl
example : send_message (.success (.num 5)) = .ok (.num 5) := by rfl
example : extract_error_message (.obj [("error", .str "X")]) = .ok (some "X") := by rfl
example : extract_error_message
    (.obj [("validation_guardrail", .obj [("validation_status", .str "not_found")])]) =
    .ok (some "Researcher not found in the classification system") := by rfl
example : extract_error_message (.obj []) = .ok none := by rfl
example : extract_error_message (.obj [("validation_guardrail", .str "x")]) =
    .error "AttributeError" := by rfl

/-- Python str.startswith on the character-list view of the strings. -/
def pyStartsWith (s pre : String) : Bool := pre.data.isPrefixOf s.data

/-- Exceptions the argon2 verify call can raise, exactly the classes caught
by FlexibleAuthManager.verify_password (VerifyMismatchError is a subclass of
VerificationError, and these plus InvalidHash are the documented failure
modes of the library verify function). -/
inductive ArgonEx where
  | verifyMismatch
  | verificationError
  | invalidHash
deriving DecidableEq

/-- FlexibleAuthManager.verify_password (src/utils/flexible_auth.py, lines
56-69), with the library verify call abstracted as phVerify: inside the try
block, a hash-prefixed stored value runs the library verification and returns
True on success; without the prefix the stored value is compared directly.
Every ArgonEx raised inside the try block is caught and answered with the
direct comparison.  The outer Except records anything that could escape to
the caller; no branch produces it. -/
def verify_password (phVerify : String → String → Except ArgonEx Unit)
    (stored_password input_password : String) : Except String Bool :=
  let tryBody : Except ArgonEx Bool :=
    if pyStartsWith stored_password "$argon2" then
      match phVerify stored_password input_password with
      | .ok _ => .ok true
      | .error e => .error e
    else .ok (stored_password == input_password)
  match tryBody with
  | .ok b => .ok b
  | .error _ => .ok (stored_password == input_password)

/-- FlexibleAuthManager.upgrade_password_to_hash (src/utils/flexible_auth.py,
lines 71-94), with the hash computation and the HTTP PATCH abstracted:
hashFn gives the argon2 hash of the plaintext or the exception the hashing
raised, patchOutcome gives the HTTP status code or the exception the request
raised.  Success means status 200 or 204; every exception is caught by the
blanket handler and turned into False, so the function never raises. -/
def upgrade_password_to_hash (hashFn : String → Except Unit String)
    (patchOutcome : Except Unit Nat) (_email plain_password : String) : Bool :=
  match hashFn plain_password with
  | .error _ => false
  | .ok _ =>
    match patchOutcome with
    | .error _ => false
    | .ok code => code == 200 || code == 204

/-- FlexibleAuthManager._update_last_login (src/utils/flexible_auth.py):
performs a PATCH and swallows every exception internally, so it has no
observable effect on the caller. -/
def update_last_login (_patchOutcome : Except Unit Nat) : Unit := ()

/-- FlexibleAuthManager.authenticate_user (src/utils/flexible_auth.py, lines
96-145), with the user query abstracted as getUsers (the parsed JSON rows or
a requests exception).  A request failure or any exception escaping the body
(for example the AttributeError raised by verify_password when the stored
password is missing or not a string) is caught and yields None.  On a row
with a truthy is_active flag and a matching password the user row is
returned; a plain-text stored password first triggers the best-effort
upgrade, whose Boolean result is discarded, then the last-login update,
which swallows its own errors. -/
def authenticate_user (phVerify : String → String → Except ArgonEx Unit)
    (getUsers : Except Unit (List JVal))
    (hashFn : String → Except Unit String)
    (patchUpgrade : Except Unit Nat)
    (patchLastLogin : Except Unit Nat)
    (email password : String) : Option JVal :=
  match getUsers with
  | .error _ => none
  | .ok users =>
    match users with
    | [] => none
    | user :: _ =>
      match user with
      | .obj ufields =>
        if !(truthy (getD ufields "is_active" (.bool false))) then none
        else
          match ufields.lookup "password" with
          | some (.str stored) =>
            match verify_password phVerify stored password with
            | .ok true =>
              let _ :=
                if !(pyStartsWith stored "$argon2") then
                  upgrade_password_to_hash hashFn patchUpgrade email password
                else true
              let _ := update_last_login patchLastLogin
              some (.obj ufields)
            | _ => none
          | _ => none
      | _ => none

example : verify_password (fun _ _ => .ok ()) "$argon2id" "pw" = .ok true := by decide
example : verify_password (fun _ _ => .error .verifyMismatch) "$argon2id" "$argon2id" =
    .ok true := by decide
example : verify_password (fun _ _ => .ok ()) "plain" "plain" = .ok true := by decide
example : verify_password (fun _ _ => .ok ()) "plain" "other" = .ok false := by decide
example :
    authenticate_user (fun _ _ => .ok ())
      (.ok [.obj [("is_active", .bool true), ("password", .str "pw")]])
      (fun _ => .error ()) (.error ()) (.error ()) "a@b" "pw" =
    some (.obj [("is_active", .bool true), ("password", .str "pw")]) := by rfl

/-- Dict test: whether a value is a keyed structure. -/
def isDict : JVal → Bool
  | .obj _ => true
  | _ => false

/-- Test for the shapes changed by the array-unwrap step. -/
def isNonEmptyArr : JVal → Bool
  | .arr (_ :: _) => true
  | _ => false

lemma unwrapArray_id (v : JVal) (h : isNonEmptyArr v = false) : unwrapArray v = v := by
  cases v with
  | arr elems =>
    cases elems with
    | nil => rfl
    | cons a l => exact nomatch h
  | null => rfl
  | bool b => rfl
  | num q => rfl
  | str s => rfl
  | obj f => rfl

lemma norm_nested_id (fields : List (String × JVal))
    (h : (fields.lookup "llm_classification").isSome = true) :
    normalize_response_format (.obj fields) = .ok (.obj fields) := by
  show normalizeCore (.obj fields) = _
  simp only [normalizeCore]
  rw [if_pos h]

lemma norm_build_id (fields : List (String × JVal)) (name : String) (primN secN : List JVal) :
    normalize_response_format (buildNormalized fields name primN secN) =
      .ok (buildNormalized fields name primN secN) :=
  norm_nested_id (buildNormalizedFields fields name primN secN) rfl

lemma norm_nonDict (v : JVal) (h : isDict (unwrapArray v) = false) :
    normalize_response_format v = .ok (unwrapArray v) := by
  show normalizeCore (unwrapArray v) = _
  cases hu : unwrapArray v with
  | obj f => rw [hu] at h; exact nomatch h
  | null => rfl
  | bool b => rfl
  | num q => rfl
  | str s => rfl
  | arr elems => rfl

/-- C5: for every dict payload that contains the llm_classification key,
normalize_response_format returns the payload unchanged. -/
theorem C5_nested_identity (fields : List (String × JVal))
    (h : (fields.lookup "llm_classification").isSome = true) :
    normalize_response_format (.obj fields) = .ok (.obj fields) :=
  norm_nested_id fields h

/-- Witness for C5 at a concrete already-nested payload. -/
theorem C5_nested_identity_witness :
    ((([("llm_classification", JVal.null)] : List (String × JVal)).lookup
        "llm_classification").isSome = true) ∧
    normalize_response_format (.obj [("llm_classification", JVal.null)]) =
      .ok (.obj [("llm_classification", JVal.null)]) :=
  ⟨rfl, C5_nested_identity [("llm_classification", JVal.null)] rfl⟩

/-- C2 counterexample: on a structurally parseable body whose effective
payload is not a keyed structure (here the number 5), the client does not
fail: send_message returns the value itself to the caller, while the claim
requires a MalformedResponse failure. -/
theorem C2_counterexample : send_message (.success (.num 5)) = .ok (.num 5) := rfl

/-- C2 amended: when the effective payload after unwrapping is not a keyed
structure, the client raises nothing and returns the unwrapped value
unchanged to the caller; no MalformedResponse-style error exists in the
code (only an unparseable body raises the invalid-format ValueError). -/
theorem C2_amended_nonDict_passthrough (v : JVal) (h : isDict (unwrapArray v) = false) :
    send_message (.success v) = .ok (unwrapArray v) := by
  show (match normalize_response_format v with
        | Except.ok w => Except.ok w
        | Except.error e =>
          Except.error (SendError.runtimeError ("Unexpected error: " ++ e))) = _
  rw [norm_nonDict v h]

/-- Witness for the amended C2 at a concrete string payload. -/
theorem C2_amended_nonDict_passthrough_witness :
    isDict (unwrapArray (.str "z")) = false ∧
    send_message (.success (.str "z")) = .ok (.str "z") :=
  ⟨rfl, C2_amended_nonDict_passthrough (.str "z") rfl⟩

/-- C6 counterexample: at x equal to the non-empty array holding the string
a, normalizing the singleton array around x gives x back, while normalizing
x directly unwraps it to the string; the two results differ, refuting the
claim that normalize of a singleton wrapping always equals normalize of the
element. -/
theorem C6_counterexample :
    normalize_response_format (.arr [.arr [.str "a"]]) ≠
      normalize_response_format (.arr [.str "a"]) ∧
    normalize_response_format (.arr [.arr [.str "a"]]) = .ok (.arr [.str "a"]) ∧
    normalize_response_format (.arr [.str "a"]) = .ok (.str "a") := by
  refine ⟨?_, rfl, rfl⟩
  intro h
  rw [show normalize_response_format (.arr [.arr [.str "a"]]) = .ok (.arr [.str "a"]) from rfl,
    show normalize_response_format (.arr [.str "a"]) = .ok (.str "a") from rfl] at h
  exact JVal.noConfusion (Except.ok.inj h)

/-- C6 amended: for every payload x that is not itself a non-empty array,
normalizing the singleton array around x equals normalizing x directly; a
non-empty-array x is unwrapped once on the direct call but survives intact
when wrapped, so the equation fails there. -/
theorem C6_amended_singleton_unwrap (x : JVal) (h : isNonEmptyArr x = false) :
    normalize_response_format (.arr [x]) = normalize_response_format x := by
  show normalizeCore (unwrapArray (.arr [x])) = normalizeCore (unwrapArray x)
  rw [show unwrapArray (.arr [x]) = x from rfl, unwrapArray_id x h]

/-- Witness for the amended C6 at a concrete non-array payload. -/
theorem C6_amended_singleton_unwrap_witness :
    isNonEmptyArr (.num 7) = false ∧
    normalize_response_format (.arr [.num 7]) = normalize_response_format (.num 7) :=
  ⟨rfl, C6_amended_singleton_unwrap (.num 7) rfl⟩

/-- C10: normalize_response_format is idempotent on dict payloads: running it
again on a successful result changes nothing, because a nested payload is
returned unchanged and the flat path always emits the llm_classification key;
a failing run stays the same failure.  Stated with bind so that the error
case of the first run is carried through. -/
theorem C10_idempotent_on_dicts (fields : List (String × JVal)) :
    (normalize_response_format (.obj fields)).bind normalize_response_format =
      normalize_response_format (.obj fields) := by
  cases hn : normalize_response_format (.obj fields) with
  | error e => rfl
  | ok y =>
    show normalize_response_format y = _
    by_cases h : (fields.lookup "llm_classification").isSome = true
    · rw [norm_nested_id fields h] at hn
      cases hn
      exact norm_nested_id fields h
    · have hflat : fields.lookup "llm_classification" = none := by
        cases hl : fields.lookup "llm_classification" with
        | none => rfl
        | some x => rw [hl] at h; exact absurd rfl h
      have hstep : normalize_response_format (.obj fields) = normalizeCore (.obj fields) := rfl
      rw [hstep] at hn
      simp only [normalizeCore] at hn
      rw [if_neg h] at hn
      split at hn
      · exact nomatch hn
      · split at hn
        · exact nomatch hn
        · split at hn
          · exact nomatch hn
          · split at hn
            · exact nomatch hn
            · split at hn
              · exact nomatch hn
              · cases hn
                exact norm_build_id _ _ _ _

/-- Oracle used by the witnesses of the password claims: the library verify
succeeds exactly on one stored hash and one plaintext. -/
def phOracle (stored supplied : String) : Except ArgonEx Unit :=
  if stored == "$argon2id$h" && supplied == "secret" then .ok ()
  else .error .verifyMismatch

/-- C3: for every stored credential and supplied password, with the library
verify call abstracted as phVerify: verify_password never raises to the
caller; when the stored value carries the recognized hash marker prefix it
returns true on library success and falls back to byte-for-byte equality
when the library raises a mismatch or malformed-hash error; without the
marker prefix it returns exactly the byte-for-byte equality. -/
theorem C3_verify_password_flexible
    (phVerify : String → String → Except ArgonEx Unit) (stored supplied : String) :
    (∃ b, verify_password phVerify stored supplied = .ok b) ∧
    (pyStartsWith stored "$argon2" = true → phVerify stored supplied = .ok () →
      verify_password phVerify stored supplied = .ok true) ∧
    (∀ e, pyStartsWith stored "$argon2" = true → phVerify stored supplied = .error e →
      verify_password phVerify stored supplied = .ok (stored == supplied)) ∧
    (pyStartsWith stored "$argon2" = false →
      verify_password phVerify stored supplied = .ok (stored == supplied)) := by
  unfold verify_password
  by_cases h : pyStartsWith stored "$argon2" = true
  · rw [if_pos h]
    cases hv : phVerify stored supplied with
    | ok u =>
      refine ⟨⟨true, rfl⟩, fun _ _ => rfl, fun e _ he => ?_, fun hn => ?_⟩
      · exact nomatch he
      · exact nomatch (h.symm.trans hn)
    | error e =>
      refine ⟨⟨stored == supplied, rfl⟩, fun _ hok => ?_, fun f _ _ => rfl, fun hn => ?_⟩
      · exact nomatch hok
      · exact nomatch (h.symm.trans hn)
  · have hn : pyStartsWith stored "$argon2" = false := by
      cases hb : pyStartsWith stored "$argon2" with
      | false => rfl
      | true => exact absurd hb h
    rw [if_neg h]
    exact ⟨⟨stored == supplied, rfl⟩, fun ht _ => absurd ht h, fun e ht _ => absurd ht h,
      fun _ => rfl⟩

/-- Witness for C3: the oracle hash accepts its plaintext, rejects a wrong
one falling back to direct comparison, and a plain stored value compares
directly. -/
theorem C3_verify_password_flexible_witness :
    verify_password phOracle "$argon2id$h" "secret" = .ok true ∧
    verify_password phOracle "$argon2id$h" "wrong" = .ok false ∧
    verify_password phOracle "plain" "plain" = .ok true ∧
    verify_password phOracle "plain" "other" = .ok false := by
  refine ⟨(C3_verify_password_flexible phOracle "$argon2id$h" "secret").2.1 (by decide) (by decide),
    ?_, ?_, ?_⟩
  · have h := (C3_verify_password_flexible phOracle "$argon2id$h" "wrong").2.2.1
      ArgonEx.verifyMismatch (by decide) (by decide)
    rw [h]
    decide
  · have h := (C3_verify_password_flexible phOracle "plain" "plain").2.2.2 (by decide)
    rw [h]
    decide
  · have h := (C3_verify_password_flexible phOracle "plain" "other").2.2.2 (by decide)
    rw [h]
    decide

/-- C4: for every successful authentication against a plain-text stored
credential, the outcome of the password-upgrade write is irrelevant to the
result: the hash function outcome hashFn and the PATCH outcome patchUpgrade
are universally quantified, covering upgrade_password_to_hash returning
false and every exception it swallows internally, and authenticate_user
still returns the user record. -/
theorem C4_upgrade_failure_harmless
    (phVerify : String → String → Except ArgonEx Unit)
    (hashFn : String → Except Unit String)
    (patchUpgrade patchLastLogin : Except Unit Nat)
    (email password : String)
    (ufields : List (String × JVal)) (rest : List JVal) (stored : String)
    (hact : truthy (getD ufields "is_active" (.bool false)) = true)
    (hpw : ufields.lookup "password" = some (.str stored))
    (hplain : pyStartsWith stored "$argon2" = false)
    (hmatch : stored = password) :
    authenticate_user phVerify (.ok (.obj ufields :: rest)) hashFn patchUpgrade
      patchLastLogin email password = some (.obj ufields) := by
  have hverify : verify_password phVerify stored password = .ok true := by
    unfold verify_password
    rw [if_neg (fun ht => Bool.false_ne_true (hplain.symm.trans ht))]
    subst hmatch
    simp
  simp [authenticate_user, hact, hpw, hverify]

/-- Witness for C4 at a concrete plain-text credential with an upgrade whose
hash step and PATCH both fail. -/
theorem C4_upgrade_failure_harmless_witness :
    truthy (getD [("is_active", JVal.bool true), ("password", JVal.str "pw")]
      "is_active" (.bool false)) = true ∧
    (([("is_active", JVal.bool true), ("password", JVal.str "pw")] :
        List (String × JVal)).lookup "password") = some (.str "pw") ∧
    pyStartsWith "pw" "$argon2" = false ∧
    authenticate_user (fun _ _ => .error .invalidHash)
      (.ok [.obj [("is_active", JVal.bool true), ("password", JVal.str "pw")]])
      (fun _ => .error ()) (.error ()) (.error ()) "a@b" "pw" =
      some (.obj [("is_active", JVal.bool true), ("password", JVal.str "pw")]) :=
  ⟨rfl, rfl, by decide,
    C4_upgrade_failure_harmless (fun _ _ => .error .invalidHash) (fun _ => .error ())
      (.error ()) (.error ()) "a@b" "pw"
      [("is_active", JVal.bool true), ("password", JVal.str "pw")] [] "pw"
      rfl rfl (by decide) rfl⟩

/-- C9 counterexample: on the dict payload whose validation_guardrail value
is the string x, the claim requires a true absence (None), but the code
calls .get on the string and raises AttributeError instead of returning. -/
theorem C9_counterexample :
    extract_error_message (.obj [("validation_guardrail", .str "x")]) =
      .error "AttributeError" := rfl

/-- C9 amended: for every dict payload, extract_error_message scans the
fixed key list in order and returns the Python str of the first value that
is present and truthy; when none applies and the validation_guardrail value
is a dict whose validation_status equals not_found it returns the fixed
researcher-not-found message; when none applies and the guardrail value is a
dict without that status it returns a true absence; and when the guardrail
value is present but not a dict the call raises AttributeError rather than
returning.  Non-dict payloads also raise. -/
theorem C9_amended_error_extraction :
    (∀ fields v, scanErr fields errorFields = some v →
       extract_error_message (.obj fields) = .ok (some (pyStr v))) ∧
    (∀ fields gf, scanErr fields errorFields = none →
       getD fields "validation_guardrail" (.obj []) = .obj gf →
       (match gf.lookup "validation_status" with
        | some (.str s) => s == "not_found"
        | _ => false) = true →
       extract_error_message (.obj fields) =
         .ok (some "Researcher not found in the classification system")) ∧
    (∀ fields gf, scanErr fields errorFields = none →
       getD fields "validation_guardrail" (.obj []) = .obj gf →
       (match gf.lookup "validation_status" with
        | some (.str s) => s == "not_found"
        | _ => false) = false →
       extract_error_message (.obj fields) = .ok none) ∧
    (∀ fields x, scanErr fields errorFields = none →
       getD fields "validation_guardrail" (.obj []) = x →
       isDict x = false →
       extract_error_message (.obj fields) = .error "AttributeError") := by
  refine ⟨?_, ?_, ?_, ?_⟩
  · intro fields v hscan
    simp only [extract_error_message, hscan]
  · intro fields gf hscan hg hcond
    simp only [extract_error_message, hscan, hg, hcond, if_true]
  · intro fields gf hscan hg hcond
    simp [extract_error_message, hscan, hg, hcond]
  · intro fields x hscan hg hx
    simp only [extract_error_message, hscan]
    rw [hg]
    cases x with
    | obj gf => exact nomatch hx
    | null => rfl
    | bool b => rfl
    | num q => rfl
    | str s => rfl
    | arr elems => rfl

/-- Witness for the amended C9 on the three returning behaviours. -/
theorem C9_amended_error_extraction_witness :
    extract_error_message (.obj [("error", .str "X")]) = .ok (some "X") ∧
    extract_error_message (.obj [("validation_guardrail",
      .obj [("validation_status", .str "not_found")])]) =
      .ok (some "Researcher not found in the classification system") ∧
    extract_error_message (.obj [("status", .str "ok")]) = .ok none := by
  refine ⟨C9_amended_error_extraction.1 _ (.str "X") rfl, ?_, ?_⟩
  · exact C9_amended_error_extraction.2.1 _ [("validation_status", .str "not_found")]
      rfl rfl (by decide)
  · exact C9_amended_error_extraction.2.2.1 _ [] rfl rfl rfl

lemma truthy_match_lookup (fields : List (String × JVal)) (k : String) :
    truthy (match fields.lookup k with | some v => v | none => JVal.null) =
      (match fields.lookup k with | some w => truthy w | none => false) := by
  cases fields.lookup k with
  | none => rfl
  | some w => rfl

/-- C1 counterexample: on the dict payload whose llm_classification value is
the number 1, the claim requires the answer false (no non-empty
classifications and no researcher name), but the code calls .get on the
number and raises AttributeError instead of returning false. -/
theorem C1_counterexample_attribute_error :
    validate_response (.obj [("llm_classification", .num 1)]) =
      .error "AttributeError" := rfl

/-- C1 amended: after unwrapping a non-empty top-level array to its first
element, a payload whose llm_classification member (when present) is a dict
validates to exactly the spec-side predicate: truthy top-level
primary_classifications, or truthy primary_classifications inside the
llm_classification dict, or truthy researcher_name, with non-dict payloads
invalid and truthiness in the Python sense rather than the claim wording
of a non-empty list; a payload whose llm_classification member is present
and not a dict makes validate_response raise AttributeError instead of
returning false. -/
theorem C1_amended_validate :
    (∀ v : JVal, (∀ fields x, unwrapArray v = .obj fields →
        fields.lookup "llm_classification" = some x → isDict x = true) →
      validate_response v = .ok (specValid v)) ∧
    (∀ (v : JVal) fields x, unwrapArray v = .obj fields →
        fields.lookup "llm_classification" = some x → isDict x = false →
      validate_response v = .error "AttributeError") := by
  constructor
  · intro v h
    cases hu : unwrapArray v with
    | obj fields =>
      simp only [validate_response, specValid, hu]
      cases hl : fields.lookup "llm_classification" with
      | none =>
        simp only [getD, hl]
        simp only [truthy_match_lookup]
        simp
      | some x =>
        have hd := h fields x hu hl
        cases x with
        | obj lf =>
          simp only [getD, hl]
          simp only [truthy_match_lookup]
        | null => exact nomatch hd
        | bool b => exact nomatch hd
        | num q => exact nomatch hd
        | str s => exact nomatch hd
        | arr elems => exact nomatch hd
    | null => simp [validate_response, specValid, hu]
    | bool b => simp [validate_response, specValid, hu]
    | num q => simp [validate_response, specValid, hu]
    | str s => simp [validate_response, specValid, hu]
    | arr elems => simp [validate_response, specValid, hu]
  · intro v fields x hu hl hx
    simp only [validate_response, hu]
    simp only [getD, hl]
    cases x with
    | obj lf => exact nomatch hx
    | null => rfl
    | bool b => rfl
    | num q => rfl
    | str s => rfl
    | arr elems => rfl

/-- Witness for the amended C1 at a payload whose llm_classification member
is a dict holding a non-empty primary-classifications list. -/
theorem C1_amended_validate_witness :
    validate_response (.obj [("llm_classification",
        .obj [("primary_classifications", .arr [.num 1])])]) =
      .ok (specValid (.obj [("llm_classification",
        .obj [("primary_classifications", .arr [.num 1])])])) ∧
    specValid (.obj [("llm_classification",
        .obj [("primary_classifications", .arr [.num 1])])]) = true := by
  refine ⟨C1_amended_validate.1 _ ?_, rfl⟩
  intro fields x h1 h2
  cases h1
  injection h2 with h3
  cases h3
  rfl

lemma mapExcept_mem (g : JVal → Except String JVal) (cs ns : List JVal)
    (h : mapExcept g cs = .ok ns) (c : JVal) (hc : c ∈ cs) :
    ∃ n, n ∈ ns ∧ g c = .ok n := by
  induction cs generalizing ns with
  | nil => cases hc
  | cons a cs ih =>
    simp only [mapExcept] at h
    cases hg : g a with
    | error e => rw [hg] at h; exact nomatch h
    | ok n =>
      rw [hg] at h
      cases hm : mapExcept g cs with
      | error e => rw [hm] at h; exact nomatch h
      | ok ns2 =>
        rw [hm] at h
        injection h with h2
        subst h2
        cases hc with
        | head => exact ⟨n, List.mem_cons_self _ _, hg⟩
        | tail _ hmem =>
          obtain ⟨m, hm2, hgm⟩ := ih ns2 hm hmem
          exact ⟨m, List.mem_cons_of_mem _ hm2, hgm⟩

lemma nc_ok (f : List (String × JVal)) :
    ∃ rf, normalize_classification (.obj f) = .ok (.obj rf) ∧
      rf.lookup "confidence" = some (getD f "llm_confidence" (.str "medium")) ∧
      rf.lookup "reasoning" = some (getD f "llm_reasoning" (.str "")) ∧
      rf.lookup "evidence_keywords" = some (getD f "evidence_keywords" (.arr [])) ∧
      rf.lookup "field_semantic_score" = some (getD f "field_semantic_score" .null) ∧
      rf.lookup "field_combined_score" = some (getD f "field_combined_score" .null) := by
  refine ⟨_, rfl, ?_, ?_, ?_, ?_, ?_⟩ <;> rfl

lemma build_lookup (fields : List (String × JVal)) (name : String) (primN secN : List JVal) :
    ∃ llmf, (buildNormalizedFields fields name primN secN).lookup "llm_classification" =
        some (.obj llmf) ∧
      llmf.lookup "primary_classifications" = some (.arr primN) ∧
      llmf.lookup "secondary_classifications" = some (.arr secN) :=
  ⟨_, rfl, rfl, rfl⟩

lemma norm_flat_inv (fields : List (String × JVal)) (out : JVal)
    (hflat : fields.lookup "llm_classification" = none)
    (h : normalize_response_format (.obj fields) = .ok out) :
    ∃ name primRaw primN secRaw secN,
      extract_researcher_name_from_response (.obj fields) = .ok name ∧
      pyIter (getD fields "primary_classifications" (.arr [])) = .ok primRaw ∧
      mapExcept normalize_classification primRaw = .ok primN ∧
      pyIter (getD fields "secondary_classifications" (.arr [])) = .ok secRaw ∧
      mapExcept normalize_classification secRaw = .ok secN ∧
      out = buildNormalized fields name primN secN := by
  have hs : (fields.lookup "llm_classification").isSome = false := by rw [hflat]; rfl
  rw [show normalize_response_format (.obj fields) = normalizeCore (.obj fields) from rfl] at h
  simp only [normalizeCore] at h
  rw [if_neg (fun ht => Bool.false_ne_true (hs.symm.trans ht))] at h
  cases he : extract_researcher_name_from_response (.obj fields) with
  | error e => rw [he] at h; exact nomatch h
  | ok name =>
    rw [he] at h
    dsimp only at h
    cases hp : pyIter (getD fields "primary_classifications" (.arr [])) with
    | error e => rw [hp] at h; exact nomatch h
    | ok primRaw =>
      rw [hp] at h
      dsimp only at h
      cases hmp : mapExcept normalize_classification primRaw with
      | error e => rw [hmp] at h; exact nomatch h
      | ok primN =>
        rw [hmp] at h
        dsimp only at h
        cases hsx : pyIter (getD fields "secondary_classifications" (.arr [])) with
        | error e => rw [hsx] at h; exact nomatch h
        | ok secRaw =>
          rw [hsx] at h
          dsimp only at h
          cases hms : mapExcept normalize_classification secRaw with
          | error e => rw [hms] at h; exact nomatch h
          | ok secN =>
            rw [hms] at h
            injection h with h2
            exact ⟨name, primRaw, primN, secRaw, secN, rfl, rfl, hmp, rfl, hms, h2.symm⟩

lemma c7_primary (fields : List (String × JVal)) (cs : List JVal) (out : JVal)
    (cf : List (String × JVal))
    (hflat : fields.lookup "llm_classification" = none)
    (harr : getD fields "primary_classifications" (.arr []) = .arr cs)
    (h : normalize_response_format (.obj fields) = .ok out)
    (hmem : JVal.obj cf ∈ cs) :
    ∃ outf llmf primN rf, out = .obj outf ∧
      outf.lookup "llm_classification" = some (.obj llmf) ∧
      llmf.lookup "primary_classifications" = some (.arr primN) ∧
      JVal.obj rf ∈ primN ∧
      normalize_classification (.obj cf) = .ok (.obj rf) ∧
      rf.lookup "confidence" = some (getD cf "llm_confidence" (.str "medium")) ∧
      rf.lookup "reasoning" = some (getD cf "llm_reasoning" (.str "")) ∧
      rf.lookup "evidence_keywords" = some (getD cf "evidence_keywords" (.arr [])) ∧
      rf.lookup "field_semantic_score" = some (getD cf "field_semantic_score" .null) ∧
      rf.lookup "field_combined_score" = some (getD cf "field_combined_score" .null) ∧
      (cf.lookup "field_semantic_score" = none →
        rf.lookup "field_semantic_score" = some JVal.null ∧ JVal.null ≠ JVal.num 0) ∧
      (cf.lookup "field_combined_score" = none →
        rf.lookup "field_combined_score" = some JVal.null ∧ JVal.null ≠ JVal.num 0) := by
  obtain ⟨name, primRaw, primN, secRaw, secN, he, hp, hmp, hsx, hms, hout⟩ :=
    norm_flat_inv fields out hflat h
  rw [harr] at hp
  have hpr : primRaw = cs := by
    injection hp with h2
    exact h2.symm
  rw [hpr] at hmp
  obtain ⟨n, hn, hgn⟩ := mapExcept_mem _ cs primN hmp _ hmem
  obtain ⟨rf, hrf, hc1, hc2, hc3, hc4, hc5⟩ := nc_ok cf
  rw [hrf] at hgn
  injection hgn with h3
  subst h3
  obtain ⟨llmf, hb1, hb2, hb3⟩ := build_lookup fields name primN secN
  subst hout
  refine ⟨buildNormalizedFields fields name primN secN, llmf, primN, rf, rfl, hb1, hb2,
    hn, hrf, hc1, hc2, hc3, hc4, hc5, ?_, ?_⟩
  · intro hnone
    refine ⟨?_, fun hq => JVal.noConfusion hq⟩
    rw [hc4]
    simp [getD, hnone]
  · intro hnone
    refine ⟨?_, fun hq => JVal.noConfusion hq⟩
    rw [hc5]
    simp [getD, hnone]

lemma c7_secondary (fields : List (String × JVal)) (cs : List JVal) (out : JVal)
    (cf : List (String × JVal))
    (hflat : fields.lookup "llm_classification" = none)
    (harr : getD fields "secondary_classifications" (.arr []) = .arr cs)
    (h : normalize_response_format (.obj fields) = .ok out)
    (hmem : JVal.obj cf ∈ cs) :
    ∃ outf llmf secN rf, out = .obj outf ∧
      outf.lookup "llm_classification" = some (.obj llmf) ∧
      llmf.lookup "secondary_classifications" = some (.arr secN) ∧
      JVal.obj rf ∈ secN ∧
      normalize_classification (.obj cf) = .ok (.obj rf) ∧
      rf.lookup "confidence" = some (getD cf "llm_confidence" (.str "medium")) ∧
      rf.lookup "reasoning" = some (getD cf "llm_reasoning" (.str "")) ∧
      rf.lookup "evidence_keywords" = some (getD cf "evidence_keywords" (.arr [])) ∧
      rf.lookup "field_semantic_score" = some (getD cf "field_semantic_score" .null) ∧
      rf.lookup "field_combined_score" = some (getD cf "field_combined_score" .null) ∧
      (cf.lookup "field_semantic_score" = none →
        rf.lookup "field_semantic_score" = some JVal.null ∧ JVal.null ≠ JVal.num 0) ∧
      (cf.lookup "field_combined_score" = none →
        rf.lookup "field_combined_score" = some JVal.null ∧ JVal.null ≠ JVal.num 0) := by
  obtain ⟨name, primRaw, primN, secRaw, secN, he, hp, hmp, hsx, hms, hout⟩ :=
    norm_flat_inv fields out hflat h
  rw [harr] at hsx
  have hsr : secRaw = cs := by
    injection hsx with h2
    exact h2.symm
  rw [hsr] at hms
  obtain ⟨n, hn, hgn⟩ := mapExcept_mem _ cs secN hms _ hmem
  obtain ⟨rf, hrf, hc1, hc2, hc3, hc4, hc5⟩ := nc_ok cf
  rw [hrf] at hgn
  injection hgn with h3
  subst h3
  obtain ⟨llmf, hb1, hb2, hb3⟩ := build_lookup fields name primN secN
  subst hout
  refine ⟨buildNormalizedFields fields name primN secN, llmf, secN, rf, rfl, hb1, hb3,
    hn, hrf, hc1, hc2, hc3, hc4, hc5, ?_, ?_⟩
  · intro hnone
    refine ⟨?_, fun hq => JVal.noConfusion hq⟩
    rw [hc4]
    simp [getD, hnone]
  · intro hnone
    refine ⟨?_, fun hq => JVal.noConfusion hq⟩
    rw [hc5]
    simp [getD, hnone]

/-- C7: for every flat payload (no llm_classification key) whose
primary_classifications or secondary_classifications value is an array, and
every dict entry of that array, a successful normalization carries in its
output a record mapped from that entry in which confidence defaults to
medium when llm_confidence is absent, reasoning defaults to the empty string,
evidence keywords default to the empty list, and the two numeric score
fields are passed through with the None default of a one-argument .get, so
an absent score stays the non-numeric null and is never the number zero. -/
theorem C7_classification_mapping_defaults :
    (∀ (fields : List (String × JVal)) (cs : List JVal) (out : JVal)
        (cf : List (String × JVal)),
      fields.lookup "llm_classification" = none →
      getD fields "primary_classifications" (.arr []) = .arr cs →
      normalize_response_format (.obj fields) = .ok out →
      JVal.obj cf ∈ cs →
      ∃ outf llmf primN rf, out = .obj outf ∧
        outf.lookup "llm_classification" = some (.obj llmf) ∧
        llmf.lookup "primary_classifications" = some (.arr primN) ∧
        JVal.obj rf ∈ primN ∧
        normalize_classification (.obj cf) = .ok (.obj rf) ∧
        rf.lookup "confidence" = some (getD cf "llm_confidence" (.str "medium")) ∧
        rf.lookup "reasoning" = some (getD cf "llm_reasoning" (.str "")) ∧
        rf.lookup "evidence_keywords" = some (getD cf "evidence_keywords" (.arr [])) ∧
        rf.lookup "field_semantic_score" = some (getD cf "field_semantic_score" .null) ∧
        rf.lookup "field_combined_score" = some (getD cf "field_combined_score" .null) ∧
        (cf.lookup "field_semantic_score" = none →
          rf.lookup "field_semantic_score" = some JVal.null ∧ JVal.null ≠ JVal.num 0) ∧
        (cf.lookup "field_combined_score" = none →
          rf.lookup "field_combined_score" = some JVal.null ∧ JVal.null ≠ JVal.num 0)) ∧
    (∀ (fields : List (String × JVal)) (cs : List JVal) (out : JVal)
        (cf : List (String × JVal)),
      fields.lookup "llm_classification" = none →
      getD fields "secondary_classifications" (.arr []) = .arr cs →
      normalize_response_format (.obj fields) = .ok out →
      JVal.obj cf ∈ cs →
      ∃ outf llmf secN rf, out = .obj outf ∧
        outf.lookup "llm_classification" = some (.obj llmf) ∧
        llmf.lookup "secondary_classifications" = some (.arr secN) ∧
        JVal.obj rf ∈ secN ∧
        normalize_classification (.obj cf) = .ok (.obj rf) ∧
        rf.lookup "confidence" = some (getD cf "llm_confidence" (.str "medium")) ∧
        rf.lookup "reasoning" = some (getD cf "llm_reasoning" (.str "")) ∧
        rf.lookup "evidence_keywords" = some (getD cf "evidence_keywords" (.arr [])) ∧
        rf.lookup "field_semantic_score" = some (getD cf "field_semantic_score" .null) ∧
        rf.lookup "field_combined_score" = some (getD cf "field_combined_score" .null) ∧
        (cf.lookup "field_semantic_score" = none →
          rf.lookup "field_semantic_score" = some JVal.null ∧ JVal.null ≠ JVal.num 0) ∧
        (cf.lookup "field_combined_score" = none →
          rf.lookup "field_combined_score" = some JVal.null ∧ JVal.null ≠ JVal.num 0)) :=
  ⟨fun fields cs out cf hflat harr h hmem => c7_primary fields cs out cf hflat harr h hmem,
   fun fields cs out cf hflat harr h hmem => c7_secondary fields cs out cf hflat harr h hmem⟩

/-- Witness for C7 on a concrete flat payload holding one empty-dict entry
in each classification array: all defaults appear in the mapped records. -/
theorem C7_classification_mapping_defaults_witness :
    ∃ out, normalize_response_format (.obj [("primary_classifications", .arr [.obj []]),
        ("secondary_classifications", .arr [.obj []])]) = .ok out ∧
      (∃ outf llmf primN rf, out = .obj outf ∧
        outf.lookup "llm_classification" = some (.obj llmf) ∧
        llmf.lookup "primary_classifications" = some (.arr primN) ∧
        JVal.obj rf ∈ primN ∧
        normalize_classification (.obj []) = .ok (.obj rf) ∧
        rf.lookup "confidence" = some (getD [] "llm_confidence" (.str "medium")) ∧
        rf.lookup "reasoning" = some (getD [] "llm_reasoning" (.str "")) ∧
        rf.lookup "evidence_keywords" = some (getD [] "evidence_keywords" (.arr [])) ∧
        rf.lookup "field_semantic_score" = some (getD [] "field_semantic_score" .null) ∧
        rf.lookup "field_combined_score" = some (getD [] "field_combined_score" .null) ∧
        (List.lookup "field_semantic_score" ([] : List (String × JVal)) = none →
          rf.lookup "field_semantic_score" = some JVal.null ∧ JVal.null ≠ JVal.num 0) ∧
        (List.lookup "field_combined_score" ([] : List (String × JVal)) = none →
          rf.lookup "field_combined_score" = some JVal.null ∧ JVal.null ≠ JVal.num 0)) ∧
      (∃ outf llmf secN rf, out = .obj outf ∧
        outf.lookup "llm_classification" = some (.obj llmf) ∧
        llmf.lookup "secondary_classifications" = some (.arr secN) ∧
        JVal.obj rf ∈ secN ∧
        normalize_classification (.obj []) = .ok (.obj rf) ∧
        rf.lookup "confidence" = some (getD [] "llm_confidence" (.str "medium"))) := by
  refine ⟨_, rfl, ?_, ?_⟩
  · exact C7_classification_mapping_defaults.1
      [("primary_classifications", .arr [.obj []]), ("secondary_classifications", .arr [.obj []])]
      [.obj []] _ [] rfl rfl rfl (List.Mem.head _)
  · obtain ⟨outf, llmf, secN, rf, h1, h2, h3, h4, h5, h6, rest⟩ :=
      C7_classification_mapping_defaults.2
        [("primary_classifications", .arr [.obj []]), ("secondary_classifications", .arr [.obj []])]
        [.obj []] _ [] rfl rfl rfl (List.Mem.head _)
    exact ⟨outf, llmf, secN, rf, h1, h2, h3, h4, h5, h6⟩

/-- Declarative form of one captured name token: one ASCII uppercase letter
followed by a non-empty run of ASCII lowercase letters. -/
def GoodToken (t : List Char) : Prop :=
  ∃ u l, t = u :: l ∧ isUpperAZ u = true ∧ l ≠ [] ∧ ∀ c ∈ l, isLowerAZ c = true

/-- Declarative statement that the name pattern matches at the start of the
input: the literal word, then non-empty whitespace, then two good tokens
separated by non-empty whitespace, then anything. -/
def ProfDecompAt (s : List Char) : Prop :=
  ∃ w1 t1 w2 t2 rest, s = profLit ++ (w1 ++ (t1 ++ (w2 ++ (t2 ++ rest)))) ∧
    w1 ≠ [] ∧ (∀ c ∈ w1, isPySpace c = true) ∧ GoodToken t1 ∧
    w2 ≠ [] ∧ (∀ c ∈ w2, isPySpace c = true) ∧ GoodToken t2

/-- Declarative statement that the name pattern matches somewhere in the
input, the search semantics of re.search. -/
def HasProfMatch (s : List Char) : Prop := ∃ i, ProfDecompAt (s.drop i)

lemma upper_not_space (c : Char) (h : isUpperAZ c = true) : isPySpace c = false := by
  cases hsp : isPySpace c with
  | false => rfl
  | true =>
    exfalso
    simp only [isPySpace, Bool.or_eq_true, decide_eq_true_eq] at hsp
    simp only [isUpperAZ, Bool.and_eq_true, decide_eq_true_eq] at h
    rcases hsp with ((((rfl | rfl) | rfl) | rfl) | rfl) | rfl <;> exact absurd h (by decide)

lemma space_not_lower (c : Char) (h : isPySpace c = true) : isLowerAZ c = false := by
  simp only [isPySpace, Bool.or_eq_true, decide_eq_true_eq] at h
  rcases h with ((((rfl | rfl) | rfl) | rfl) | rfl) | rfl <;> decide

lemma isEmpty_false_of_ne (l : List Char) (h : l ≠ []) : l.isEmpty = false := by
  cases l with
  | nil => exact absurd rfl h
  | cons a t => rfl

lemma takeWhile_app (p : Char → Bool) (w r : List Char) (hw : ∀ c ∈ w, p c = true)
    (hr : ∀ c, r.head? = some c → p c = false) :
    (w ++ r).takeWhile p = w ∧ (w ++ r).dropWhile p = r := by
  induction w with
  | nil =>
    simp only [List.nil_append]
    cases r with
    | nil => exact ⟨rfl, rfl⟩
    | cons c t =>
      have hc := hr c rfl
      simp [List.takeWhile_cons, List.dropWhile_cons, hc]
  | cons a w ih =>
    have ha : p a = true := hw a (List.mem_cons_self _ _)
    have hw2 : ∀ c ∈ w, p c = true := fun c hc => hw c (List.mem_cons_of_mem _ hc)
    obtain ⟨h1, h2⟩ := ih hw2
    simp only [List.cons_append, List.takeWhile_cons, List.dropWhile_cons, ha, if_pos]
    exact ⟨by rw [h1], by rw [h2]⟩

lemma takeWhile_ne_nil (p : Char → Bool) (l r : List Char) (hl : l ≠ [])
    (hall : ∀ c ∈ l, p c = true) :
    ((l ++ r).takeWhile p).isEmpty = false := by
  cases l with
  | nil => exact absurd rfl hl
  | cons a t =>
    have ha := hall a (List.mem_cons_self _ _)
    simp [List.takeWhile_cons, ha]

lemma nameToken_some (s t r : List Char) (h : nameToken s = some (t, r)) :
    GoodToken t ∧ s = t ++ r := by
  cases s with
  | nil => exact nomatch h
  | cons c cs =>
    simp only [nameToken] at h
    by_cases hu : isUpperAZ c = true
    · rw [if_pos hu] at h
      by_cases he : (cs.takeWhile isLowerAZ).isEmpty = true
      · rw [if_pos he] at h
        exact nomatch h
      · rw [if_neg he] at h
        injection h with h2
        injection h2 with ha hb
        subst ha
        subst hb
        refine ⟨⟨c, cs.takeWhile isLowerAZ, rfl, hu, ?_, fun x hx => List.mem_takeWhile_imp hx⟩, ?_⟩
        · intro hnil
          exact he (by rw [hnil]; rfl)
        · exact congrArg (c :: ·) (List.takeWhile_append_dropWhile isLowerAZ cs).symm
    · rw [if_neg hu] at h
      exact nomatch h

lemma nameToken_complete (u : Char) (l r : List Char) (hu : isUpperAZ u = true)
    (hl : l ≠ []) (hall : ∀ c ∈ l, isLowerAZ c = true) :
    ∃ t r2, nameToken (u :: (l ++ r)) = some (t, r2) := by
  simp only [nameToken]
  rw [if_pos hu]
  have hne := takeWhile_ne_nil isLowerAZ l r hl hall
  rw [if_neg (fun ht => Bool.false_ne_true (hne.symm.trans ht))]
  exact ⟨_, _, rfl⟩

lemma matchProfAt_sound (s : List Char) (g : List Char) (h : matchProfAt s = some g) :
    ProfDecompAt s := by
  unfold matchProfAt at h
  by_cases hpre : profLit.isPrefixOf s = true
  · rw [if_pos hpre] at h
    dsimp only at h
    obtain ⟨tail, htail⟩ := List.isPrefixOf_iff_prefix.mp hpre
    have hdrop : s.drop 9 = tail := by
      rw [← htail]
      exact List.drop_left profLit tail
    rw [hdrop] at h
    by_cases he1 : (tail.takeWhile isPySpace).isEmpty = true
    · rw [if_pos he1] at h
      exact nomatch h
    · rw [if_neg he1] at h
      cases hn1 : nameToken (tail.dropWhile isPySpace) with
      | none => rw [hn1] at h; exact nomatch h
      | some tr =>
        obtain ⟨t1, r2⟩ := tr
        rw [hn1] at h
        dsimp only at h
        obtain ⟨hg1, heq1⟩ := nameToken_some _ _ _ hn1
        by_cases he2 : (r2.takeWhile isPySpace).isEmpty = true
        · rw [if_pos he2] at h
          exact nomatch h
        · rw [if_neg he2] at h
          cases hn2 : nameToken (r2.dropWhile isPySpace) with
          | none => rw [hn2] at h; exact nomatch h
          | some tr2 =>
            obtain ⟨t2, r4⟩ := tr2
            obtain ⟨hg2, heq2⟩ := nameToken_some _ _ _ hn2
            refine ⟨tail.takeWhile isPySpace, t1, r2.takeWhile isPySpace, t2, r4, ?_,
              fun hnil => he1 (by rw [hnil]; rfl),
              fun x hx => List.mem_takeWhile_imp hx, hg1,
              fun hnil => he2 (by rw [hnil]; rfl),
              fun x hx => List.mem_takeWhile_imp hx, hg2⟩
            have e2b : r2 = List.takeWhile isPySpace r2 ++ (t2 ++ r4) := by
              conv_lhs => rw [← List.takeWhile_append_dropWhile isPySpace r2]
              rw [heq2]
            have e1b : tail = List.takeWhile isPySpace tail ++
                (t1 ++ (List.takeWhile isPySpace r2 ++ (t2 ++ r4))) := by
              conv_lhs => rw [← List.takeWhile_append_dropWhile isPySpace tail]
              rw [heq1]
              conv_lhs => rw [e2b]
            conv_lhs => rw [← htail]
            conv_lhs => rw [e1b]
  · rw [if_neg hpre] at h
    exact nomatch h

lemma matchProfAt_complete (s : List Char) (h : ProfDecompAt s) :
    ∃ g, matchProfAt s = some g := by
  obtain ⟨w1, t1, w2, t2, rest, hs, hw1ne, hw1, hg1, hw2ne, hw2, hg2⟩ := h
  obtain ⟨u1, l1, ht1, hu1, hl1ne, hl1⟩ := hg1
  obtain ⟨u2, l2, ht2, hu2, hl2ne, hl2⟩ := hg2
  subst ht1
  subst ht2
  subst hs
  unfold matchProfAt
  simp only [List.cons_append]
  have hpre : profLit.isPrefixOf
      (profLit ++ (w1 ++ (u1 :: (l1 ++ (w2 ++ (u2 :: (l2 ++ rest))))))) = true :=
    List.isPrefixOf_iff_prefix.mpr ⟨_, rfl⟩
  rw [if_pos hpre]
  rw [show (profLit ++ (w1 ++ (u1 :: (l1 ++ (w2 ++ (u2 :: (l2 ++ rest))))))).drop 9 =
      w1 ++ (u1 :: (l1 ++ (w2 ++ (u2 :: (l2 ++ rest))))) from List.drop_left profLit _]
  obtain ⟨htw1, hdw1⟩ := takeWhile_app isPySpace w1 (u1 :: (l1 ++ (w2 ++ (u2 :: (l2 ++ rest)))))
    hw1 (fun c hc => by
      injection hc with h2
      subst h2
      exact upper_not_space _ hu1)
  rw [htw1, hdw1, if_neg (fun ht =>
    Bool.false_ne_true ((isEmpty_false_of_ne w1 hw1ne).symm.trans ht))]
  have hw2head : ∀ c, (w2 ++ (u2 :: (l2 ++ rest))).head? = some c → isLowerAZ c = false := by
    intro c hc
    cases w2 with
    | nil =>
      exact absurd rfl hw2ne
    | cons b t =>
      injection hc with h2
      subst h2
      exact space_not_lower _ (hw2 _ (List.mem_cons_self _ _))
  obtain ⟨htwl, hdwl⟩ := takeWhile_app isLowerAZ l1 (w2 ++ (u2 :: (l2 ++ rest))) hl1 hw2head
  have hname1 : nameToken (u1 :: (l1 ++ (w2 ++ (u2 :: (l2 ++ rest))))) =
      some (u1 :: l1, w2 ++ (u2 :: (l2 ++ rest))) := by
    simp only [nameToken]
    rw [if_pos hu1]
    rw [htwl, hdwl, if_neg (fun ht =>
      Bool.false_ne_true ((isEmpty_false_of_ne l1 hl1ne).symm.trans ht))]
  rw [hname1]
  dsimp only
  obtain ⟨htw2, hdw2⟩ := takeWhile_app isPySpace w2 (u2 :: (l2 ++ rest))
    hw2 (fun c hc => by
      injection hc with h2
      subst h2
      exact upper_not_space _ hu2)
  rw [htw2, hdw2, if_neg (fun ht =>
    Bool.false_ne_true ((isEmpty_false_of_ne w2 hw2ne).symm.trans ht))]
  obtain ⟨t, r2, hnt⟩ := nameToken_complete u2 l2 rest hu2 hl2ne hl2
  rw [hnt]
  exact ⟨_, rfl⟩

lemma profSearch_none_iff (s : List Char) :
    profSearch s = none ↔ ∀ i, matchProfAt (s.drop i) = none := by
  induction s with
  | nil =>
    constructor
    · intro _ i
      rw [List.drop_nil]
      rfl
    · intro _
      rfl
  | cons c rest ih =>
    constructor
    · intro h i
      have hm : matchProfAt (c :: rest) = none := by
        cases hmc : matchProfAt (c :: rest) with
        | none => rfl
        | some g =>
          simp only [profSearch, hmc] at h
          exact h
      have hr : profSearch rest = none := by
        simp only [profSearch, hm] at h
        exact h
      cases i with
      | zero => exact hm
      | succ j => exact (ih.mp hr) j
    · intro h
      have h0 : matchProfAt (c :: rest) = none := h 0
      simp only [profSearch, h0]
      exact ih.mpr (fun i => h (i + 1))

lemma profSearch_some (s g : List Char) (h : profSearch s = some g) :
    ∃ i, matchProfAt (s.drop i) = some g := by
  induction s with
  | nil => exact nomatch h
  | cons c rest ih =>
    cases hmc : matchProfAt (c :: rest) with
    | some g2 =>
      simp only [profSearch, hmc] at h
      injection h with h2
      subst h2
      exact ⟨0, hmc⟩
    | none =>
      simp only [profSearch, hmc] at h
      obtain ⟨i, hi⟩ := ih h
      exact ⟨i + 1, hi⟩

lemma profSearch_none_iff_no_match (s : List Char) :
    profSearch s = none ↔ ¬ HasProfMatch s := by
  constructor
  · intro h hm
    obtain ⟨i, hd⟩ := hm
    obtain ⟨g, hg⟩ := matchProfAt_complete _ hd
    rw [(profSearch_none_iff s).mp h i] at hg
    exact nomatch hg
  · intro h
    cases hs : profSearch s with
    | none => rfl
    | some g =>
      obtain ⟨i, hi⟩ := profSearch_some s g hs
      exact absurd ⟨i, matchProfAt_sound _ _ hi⟩ h

/-- C8: the normalized researcher name is derived by searching the biography
text for the word Professor followed by whitespace and a two-token
capitalized name (an uppercase letter then lowercase letters, twice,
whitespace-separated), the declarative HasProfMatch property; the search
returns nothing exactly when no position matches, in which case the name
defaults to the literal Researcher; when the search finds a captured group
the name is that group; and the biography containing Professor Jane Doe
yields the researcher name Jane Doe, also through full normalization. -/
theorem C8_researcher_name_heuristic :
    (∀ s : List Char, profSearch s = none ↔ ¬ HasProfMatch s) ∧
    (∀ (fields : List (String × JVal)) (bio : String),
      getD fields "enriched_biography" (.str "") = .str bio →
      ¬ HasProfMatch bio.data →
      extract_researcher_name_from_response (.obj fields) = .ok "Researcher") ∧
    (∀ (fields : List (String × JVal)) (bio : String) (g : List Char),
      getD fields "enriched_biography" (.str "") = .str bio →
      profSearch bio.data = some g →
      extract_researcher_name_from_response (.obj fields) = .ok (String.mk g) ∧
        HasProfMatch bio.data) ∧
    (extract_researcher_name_from_response
      (.obj [("enriched_biography",
        .str "Professor Jane Doe studies genetics at Deakin.")]) = .ok "Jane Doe" ∧
     ∃ outf, normalize_response_format (.obj [("enriched_biography",
        .str "Professor Jane Doe studies genetics at Deakin.")]) = .ok (.obj outf) ∧
       outf.lookup "researcher_name" = some (.str "Jane Doe")) := by
  refine ⟨profSearch_none_iff_no_match, ?_, ?_, ?_, ?_⟩
  · intro fields bio hb hnm
    have hn : profSearch bio.data = none := (profSearch_none_iff_no_match bio.data).mpr hnm
    simp only [extract_researcher_name_from_response]
    rw [hb]
    dsimp only
    rw [hn]
  · intro fields bio g hb hsg
    constructor
    · simp only [extract_researcher_name_from_response]
      rw [hb]
      dsimp only
      rw [hsg]
    · obtain ⟨i, hi⟩ := profSearch_some _ _ hsg
      exact ⟨i, matchProfAt_sound _ _ hi⟩
  · rfl
  · exact ⟨_, rfl, rfl⟩

/-- Witness for C8 at a biography without the pattern: the name falls back
to the literal Researcher. -/
theorem C8_researcher_name_heuristic_witness :
    extract_researcher_name_from_response
      (.obj [("enriched_biography", .str "Dr Jane Doe")]) = .ok "Researcher" :=
  C8_researcher_name_heuristic.2.1 [("enriched_biography", .str "Dr Jane Doe")]
    "Dr Jane Doe" rfl ((C8_researcher_name_heuristic.1 "Dr Jane Doe".data).mp rfl)
